import Mathlib

/-! Game-time ledger of gobot (`gametime.go`).

A shallow embedding of the per-user, per-game play-time ledger: the duration
encoding (`encoding/binary` varints), the Bolt transactions the program runs,
the merge rule of `PlayingUser.SaveGametime`, and the tracker operations
`StartGametime`, `EndGametime`, `Snapshot`, `ResetGametime`,
`ResetOneGametime` and `GetUserGametime`.

Conventions.
* A byte slice is a list of naturals below 256.
* `int64` and `uint64` values are integers and naturals kept in range by
  explicit truncation (`toUint64`) or saturation (`Time.Sub`).
* Every `time.Now()` of one operation is the clock reading `now` passed to it.
* A Go `error` is `Option Error`; `none` is `nil`.
-/

namespace Gobot

/-! ## Byte slices and machine integers -/

/-- A Go byte slice. -/
abbrev Bytes := List Nat

/-- The constant `binary.MaxVarintLen64`. -/
def MaxVarintLen64 : Nat := 10

/-- The Go expression `make([]byte, n)`: a zero-filled slice of length `n`. -/
def makeBytes (n : Nat) : Bytes := List.replicate n 0

/-- The conversion `uint64(x)` of a signed integer: reduction modulo `2^64`. -/
def toUint64 (x : Int) : Nat := (x % 2 ^ 64).toNat

/-- The conversion `int64(u)` of an unsigned 64-bit value (two's complement). -/
def toInt64 (u : Nat) : Int :=
  if u % 2 ^ 64 < 2 ^ 63 then ((u % 2 ^ 64 : Nat) : Int) else ((u % 2 ^ 64 : Nat) : Int) - 2 ^ 64

/-- The range of a Go `int64`. -/
def IsInt64 (x : Int) : Prop := -(2 ^ 63) ≤ x ∧ x < 2 ^ 63

instance (x : Int) : Decidable (IsInt64 x) := by
  unfold IsInt64
  exact inferInstance

/-! ## `encoding/binary` varints -/

/-- The function `binary.PutUvarint(buf, x)`:

    i := 0
    for x >= 0x80 { buf[i] = byte(x) | 0x80; x >>= 7; i++ }
    buf[i] = byte(x)
    return i + 1

The recursion runs over the part of the buffer from index `i` on; the result
is that part after the writes together with the number of bytes written.
`none` is the index-out-of-range failure of a write past the end. -/
def PutUvarint : Bytes → Nat → Option (Bytes × Nat)
  | [], _ => none
  | _ :: rest, x =>
    if x ≥ 0x80 then
      match PutUvarint rest (x >>> 7) with
      | some (out, n) => some (((x % 256) ||| 0x80) :: out, n + 1)
      | none => none
    else some ((x % 256) :: rest, 1)

/-- The function `binary.PutVarint(buf, x)`: zig-zag, then `PutUvarint`.

    ux := uint64(x) << 1
    if x < 0 { ux = ^ux }
    return PutUvarint(buf, ux) -/
def PutVarint (buf : Bytes) (x : Int) : Option (Bytes × Nat) :=
  let ux := (toUint64 x <<< 1) % 2 ^ 64
  let ux := if x < 0 then 2 ^ 64 - 1 - ux else ux
  PutUvarint buf ux

/-- The loop of `binary.Uvarint` from index `i` with accumulator `x` and shift `s`:

    for i, b := range buf {
      if i == MaxVarintLen64 { return 0, -(i + 1) }
      if b < 0x80 {
        if i == MaxVarintLen64-1 && b > 1 { return 0, -(i + 1) }
        return x | uint64(b)<<s, i + 1
      }
      x |= uint64(b&0x7f) << s
      s += 7
    }
    return 0, 0 -/
def UvarintLoop : Bytes → Nat → Nat → Nat → Nat × Int
  | [], _, _, _ => (0, 0)
  | b :: rest, i, x, s =>
    if i = MaxVarintLen64 then (0, -((i : Int) + 1))
    else if b < 0x80 then
      if i = MaxVarintLen64 - 1 ∧ b > 1 then (0, -((i : Int) + 1))
      else (x ||| ((b <<< s) % 2 ^ 64), (i : Int) + 1)
    else UvarintLoop rest (i + 1) (x ||| (((b &&& 0x7f) <<< s) % 2 ^ 64)) (s + 7)

/-- The function `binary.Uvarint(buf)`. -/
def Uvarint (buf : Bytes) : Nat × Int := UvarintLoop buf 0 0 0

/-- The function `binary.Varint(buf)`:

    ux, n := Uvarint(buf)
    x := int64(ux >> 1)
    if ux&1 != 0 { x = ^x }
    return x, n -/
def Varint (buf : Bytes) : Int × Int :=
  let r := Uvarint buf
  let x := toInt64 (r.1 >>> 1)
  let x := if r.1 &&& 1 ≠ 0 then -x - 1 else x
  (x, r.2)

/-- The bytes `SaveGametime` stores for a nanosecond count `x`:

    newPlayed := make([]byte, binary.MaxVarintLen64)
    binary.PutVarint(newPlayed, x)

that is the whole buffer after the call. -/
def encodeDuration (x : Int) : Option Bytes :=
  (PutVarint (makeBytes MaxVarintLen64) x).map Prod.fst

/-! ## The Bolt store -/

/-- A Go `error` value is its message; `nil` is `none` of `Option Error`. -/
abbrev Error := String

/-- Bolt's `ErrBucketNotFound`. -/
def ErrBucketNotFound : Error := "bucket not found"

/-- Bolt's `ErrBucketNameRequired`. -/
def ErrBucketNameRequired : Error := "bucket name required"

/-- Bolt's `ErrKeyRequired`. -/
def ErrKeyRequired : Error := "key required"

/-- Bolt's `ErrKeyTooLarge`. -/
def ErrKeyTooLarge : Error := "key too large"

/-- Bolt's `ErrValueTooLarge`. -/
def ErrValueTooLarge : Error := "value too large"

/-- Bolt's `MaxKeySize`, in bytes. -/
def MaxKeySize : Nat := 32768

/-- Bolt's `MaxValueSize`, in bytes. -/
def MaxValueSize : Nat := 2 ^ 31 - 2

/-- Equality of finite maps is equality of their entry lists. -/
instance decEqAList {α : Type} {β : α → Type} [DecidableEq α] [∀ a, DecidableEq (β a)] :
    DecidableEq (AList β) :=
  fun s t => decidable_of_iff (s.entries = t.entries) AList.ext_iff.symm

/-- A Bolt bucket as this program fills it: a finite map from a key (the game
name, `[]byte(p.Game)`) to a value (the encoded play time). -/
abbrev Bucket := AList (fun _ : String => Bytes)

/-- The database file: a finite map from a bucket name (the user id,
`[]byte(p.UserID)`) to the bucket. -/
abbrev Store := AList (fun _ : String => Bucket)

/-- The working state of a Bolt transaction `*bolt.Tx`. -/
abbrev Tx := Store

/-- The length `len([]byte(s))` of a Go string. -/
def byteLen (s : String) : Nat := s.utf8ByteSize

/-- The call `t.Bucket(name)`; `none` is the `nil` bucket. -/
def Tx.Bucket (t : Tx) (name : String) : Option Bucket := t.lookup name

/-- The call `t.CreateBucketIfNotExists(name)`: fails on an empty name, returns
the bucket when it exists, creates it empty otherwise. The bucket handle is
the name, read in the returned transaction state. -/
def Tx.CreateBucketIfNotExists (t : Tx) (name : String) : Tx × Option Error :=
  if byteLen name = 0 then (t, some ErrBucketNameRequired)
  else
    match t.lookup name with
    | some _ => (t, none)
    | none => (t.insert name ∅, none)

/-- The call `t.DeleteBucket(name)`: `ErrBucketNotFound` when there is none. -/
def Tx.DeleteBucket (t : Tx) (name : String) : Tx × Option Error :=
  match t.lookup name with
  | some _ => (t.erase name, none)
  | none => (t, some ErrBucketNotFound)

/-- The call `b.Get(key)` on the bucket `name` of the transaction; `none` is
the `nil` slice of a key that does not exist. -/
def Bucket.Get (t : Tx) (name key : String) : Option Bytes :=
  (t.lookup name).bind (fun b => b.lookup key)

/-- The call `b.Put(key, value)` on the bucket `name` of the transaction:
`ErrKeyRequired` on an empty key, `ErrKeyTooLarge` and `ErrValueTooLarge`
beyond the size limits, the write otherwise. (The last case, a handle whose
bucket is not in the transaction, is not reached by this program, which
takes every handle from the transaction it writes to.) -/
def Bucket.Put (t : Tx) (name key : String) (value : Bytes) : Tx × Option Error :=
  if byteLen key = 0 then (t, some ErrKeyRequired)
  else if byteLen key > MaxKeySize then (t, some ErrKeyTooLarge)
  else if value.length > MaxValueSize then (t, some ErrValueTooLarge)
  else
    match t.lookup name with
    | some b => (t.insert name (b.insert key value), none)
    | none => (t, some ErrBucketNotFound)

/-- The call `b.Delete(key)` on the bucket `name` of the transaction: a key
that does not exist is not an error. -/
def Bucket.Delete (t : Tx) (name key : String) : Tx × Option Error :=
  match t.lookup name with
  | some b => (t.insert name (b.erase key), none)
  | none => (t, some ErrBucketNotFound)

/-- The field `b.Stats().KeyN`: the number of keys of the bucket. -/
def Bucket.KeyN (b : Bucket) : Nat := b.entries.length

/-- The call `db.Update(fn)`: commit when `fn` returns `nil`, roll back and
return the error otherwise. (A commit is taken to reach the disk.) -/
def DB.Update (db : Store) (fn : Tx → Tx × Option Error) : Store × Option Error :=
  match fn db with
  | (t, none) => (t, none)
  | (_, some err) => (db, some err)

/-! ## Time

An instant (`time.Time`) is an integer: nanoseconds on the axis of the clock.
A `time.Duration` is an `int64` count of nanoseconds, an integer kept in range
by the saturation of `Time.Sub`, which package `time` documents: "If the
result exceeds the maximum (or minimum) value that can be stored in a
Duration, the maximum (or minimum) duration will be returned." -/

/-- The constant `minDuration` of package `time`. -/
def minDuration : Int := -(2 ^ 63)

/-- The constant `maxDuration` of package `time`. -/
def maxDuration : Int := 2 ^ 63 - 1

/-- The method `t.Add(d)` of an instant `t` and a duration `d`. -/
def Time.Add (t : Int) (d : Int) : Int := t + d

/-- The method `t.Sub(u)` of two instants: the difference, or `maxDuration` /
`minDuration` when the difference does not fit a `Duration`. -/
def Time.Sub (t u : Int) : Int :=
  if t - u > maxDuration then maxDuration
  else if t - u < minDuration then minDuration
  else t - u

/-- The call `time.Since(t)` at the clock reading `now`. -/
def Since (now t : Int) : Int := Time.Sub now t

/-! ## The tracker -/

/-- The fields of `discord.User` the program reads. -/
structure User where
  ID : String
  Name : String
deriving DecidableEq, Repr

/-- The fields of `discord.Game` the program reads. -/
structure Game where
  Name : String
deriving DecidableEq, Repr

/-- The struct `PlayingUser`. -/
structure PlayingUser where
  UserID : String
  StartTime : Int
  Game : String
deriving DecidableEq, Repr

/-- The method `(p *PlayingUser) SaveGametime(t *bolt.Tx) error`. The result is
the receiver after the call, the transaction state after the call, and the
error. A failing `Put` leaves the bucket that was just created in the
transaction. The `none` of `encodeDuration` is the failure of a write past
the end of the buffer (`encodeDuration_spec`: it does not occur). -/
def PlayingUser.SaveGametime (p : PlayingUser) (t : Tx) (now : Int) :
    PlayingUser × Tx × Option Error :=
  match Tx.CreateBucketIfNotExists t p.UserID with
  | (_, some err) => (p, t, some err)
  | (t1, none) =>
    match Bucket.Get t1 p.UserID p.Game with
    | some bPlayed =>
      -- bytes to int64
      let played := (Varint bPlayed).1
      -- Calc total time
      let total := Time.Add now played
      -- int64 to bytes
      match encodeDuration (Time.Sub total p.StartTime) with
      | none => (p, t1, some "index out of range")
      | some newPlayed =>
        match Bucket.Put t1 p.UserID p.Game newPlayed with
        | (_, some err) => (p, t1, some err)
        | (t2, none) => ({ p with StartTime := now }, t2, none)
    | none =>
      -- int64 to bytes
      match encodeDuration (Since now p.StartTime) with
      | none => (p, t1, some "index out of range")
      | some newPlayed =>
        match Bucket.Put t1 p.UserID p.Game newPlayed with
        | (_, some err) => (p, t1, some err)
        | (t2, none) => ({ p with StartTime := now }, t2, none)

/-- The struct `GametimeCounter`: the map of sessions in progress, keyed by
user id, and the database. (The channel is not part of the state.) -/
structure GametimeCounter where
  InProgress : AList (fun _ : String => PlayingUser)
  DB : Store
deriving DecidableEq

/-- The result type `map[string]int64` of `GetUserGametime`. -/
abbrev GameMap := AList (fun _ : String => Int)

/-- The method `StartGametime(user, game)` at the clock reading `now`. -/
def GametimeCounter.StartGametime (counter : GametimeCounter) (user : User) (game : Game)
    (now : Int) : GametimeCounter :=
  let pUser : PlayingUser := { UserID := user.ID, Game := game.Name, StartTime := now }
  { counter with InProgress := counter.InProgress.insert user.ID pUser }

/-- The method `EndGametime(pUser)` at the clock reading `now`: the user leaves
the playing list and the play time is saved in one transaction, whose error
is logged only. -/
def GametimeCounter.EndGametime (counter : GametimeCounter) (pUser : PlayingUser)
    (now : Int) : GametimeCounter :=
  -- Delete user from playing list
  let inProgress := counter.InProgress.erase pUser.UserID
  -- Update game time
  let r := DB.Update counter.DB (fun t =>
    let s := pUser.SaveGametime t now
    (s.2.1, s.2.2))
  { InProgress := inProgress, DB := r.1 }

/-- The method `ResetGametime(user)`. -/
def GametimeCounter.ResetGametime (counter : GametimeCounter) (user : User) :
    GametimeCounter × Option Error :=
  let r := DB.Update counter.DB (fun t => Tx.DeleteBucket t user.ID)
  ({ counter with DB := r.1 }, r.2)

/-- The method `ResetOneGametime(user, gameName)`. -/
def GametimeCounter.ResetOneGametime (counter : GametimeCounter) (user : User)
    (gameName : String) : GametimeCounter × Option Error :=
  let r := DB.Update counter.DB (fun t =>
    match Tx.Bucket t user.ID with
    | none => (t, some "User unknown")
    | some b =>
      -- If only one game, delete bucket
      if Bucket.KeyN b = 1 then Tx.DeleteBucket t user.ID
      else Bucket.Delete t user.ID gameName)
  ({ counter with DB := r.1 }, r.2)

/-- The method `GetUserGametime(user)`: a read-only transaction that fills the
map with one decoded value per key of the user's bucket. -/
def GametimeCounter.GetUserGametime (counter : GametimeCounter) (user : User) :
    GameMap × Option Error :=
  match Tx.Bucket counter.DB user.ID with
  | none => (∅, some "user never played")
  | some b =>
    -- Iterate through all games
    (b.entries.foldl (fun (gameMap : GameMap) e => gameMap.insert e.1 (Varint e.2).1) ∅, none)

/-- The method `Snapshot()` at the clock reading `now`. The loop variable
`pUser` of `for _, pUser := range counter.InProgress` is a copy of the map
value, so the `StartTime` that `SaveGametime` sets belongs to the copy and
`InProgress` is as before; an error of one user is logged, the loop goes on
in the same transaction, and the function returns `nil`, so the transaction
commits. The loop visits the entries in the order of the list. -/
def GametimeCounter.Snapshot (counter : GametimeCounter) (now : Int) :
    GametimeCounter × Option Error :=
  let r := DB.Update counter.DB (fun t =>
    (counter.InProgress.entries.foldl (fun t e => (e.2.SaveGametime t now).2.1) t, none))
  ({ counter with DB := r.1 }, r.2)

/-- The function `NewCounter()` on an opened database. -/
def NewCounter (db : Store) : GametimeCounter := { InProgress := ∅, DB := db }

/-! ## Observations and runs -/

/-- The stored total of user `u` for game `a`, an entry that does not exist
counting as zero. -/
def storedTotal (db : Store) (u a : String) : Int :=
  match Bucket.Get db u a with
  | some bytes => (Varint bytes).1
  | none => 0

/-- One call on the tracker that can write play time. -/
inductive Event where
  | start (user : User) (game : Game)
  | finish (pUser : PlayingUser)
  | snapshot
deriving DecidableEq

/-- The effect of one call at the clock reading `now`. -/
def GametimeCounter.step (counter : GametimeCounter) (now : Int) : Event → GametimeCounter
  | Event.start user game => counter.StartGametime user game now
  | Event.finish pUser => counter.EndGametime pUser now
  | Event.snapshot => (counter.Snapshot now).1

/-- The effect of a sequence of calls, each with its clock reading. -/
def GametimeCounter.run (counter : GametimeCounter) : List (Int × Event) → GametimeCounter
  | [] => counter
  | (now, ev) :: rest => (counter.step now ev).run rest

/-- Whether the session an `EndGametime` call is given started no later than
the call; the other calls take no session. -/
def Event.startedBy (now : Int) : Event → Bool
  | Event.finish pUser => decide (pUser.StartTime ≤ now)
  | _ => true

/-- Whether a sequence of calls runs under a clock that does not go back from
`t0` and every session handed to `EndGametime` started no later than the call. -/
def ValidRun (t0 : Int) : List (Int × Event) → Bool
  | [] => true
  | (now, ev) :: rest => decide (t0 ≤ now) && ev.startedBy now && ValidRun now rest

/-- Every session in progress started no later than the clock reading `t0`. -/
def SessionsStartedBy (counter : GametimeCounter) (t0 : Int) : Prop :=
  ∀ e ∈ counter.InProgress.entries, e.2.StartTime ≤ t0

instance (counter : GametimeCounter) (t0 : Int) : Decidable (SessionsStartedBy counter t0) := by
  unfold SessionsStartedBy
  exact inferInstance

/-- No bucket of the store is empty: every user record holds an entry. -/
def NoEmptyRecord (db : Store) : Prop :=
  ∀ u b, db.lookup u = some b → b.entries ≠ []

/-! ## Concrete inputs -/

/-- A user with id `42`. -/
def user42 : User := { ID := "42", Name := "player" }

/-- The ten bytes `SaveGametime` stores for a play time of 5 ns. -/
def fiveNs : Bytes := [10, 0, 0, 0, 0, 0, 0, 0, 0, 0]

/-- The ten bytes `SaveGametime` stores for a play time of `2^63 - 1` ns. -/
def maxNs : Bytes := [254, 255, 255, 255, 255, 255, 255, 255, 255, 1]

/-- A database with one bucket, of user `42`, holding one game. -/
def oneGameStore (game : String) (value : Bytes) : Store :=
  (∅ : Store).insert "42" ((∅ : Bucket).insert game value)

/-- A game name of 32769 bytes, one more than Bolt's `MaxKeySize`. -/
def longName : String := String.mk (List.replicate 32769 'a')

/-- A session of user `42` on Chess that started at clock reading 0. -/
def chessSession : PlayingUser := { UserID := "42", StartTime := 0, Game := "Chess" }

/-- User `42` starts Chess at clock reading 0 and `Snapshot` runs at 5. -/
def startThenSnapshot : List (Int × Event) :=
  [(0, Event.start user42 { Name := "Chess" }), (5, Event.snapshot)]

/-- The session of user `42` that started at 0 ends at clock reading 8. -/
def thenFinish : List (Int × Event) := [(8, Event.finish chessSession)]

/-- The ten bytes that decode to a play time of -10 ns. -/
def minusTenNs : Bytes := [19, 0, 0, 0, 0, 0, 0, 0, 0, 0]

/-- User `42` starts Chess at clock reading 0 and that session ends at 4. -/
def startThenFinish : List (Int × Event) :=
  [(0, Event.start user42 { Name := "Chess" }), (4, Event.finish chessSession)]

/-- The end of the session in progress of user `uid`: the caller hands the
entry of the active map to `EndGametime` (through `GametimeChan` and
`Listen`); without an entry there is no call. -/
def GametimeCounter.endCurrent (counter : GametimeCounter) (uid : String) (now : Int) :
    GametimeCounter :=
  match counter.InProgress.lookup uid with
  | some pUser => counter.EndGametime pUser now
  | none => counter

/-- One session: `StartGametime` at `T0`, the end of that session `D1` later. -/
def firstSession (c : GametimeCounter) (user : User) (game : Game) (T0 D1 : Int) :
    GametimeCounter :=
  (c.StartGametime user game T0).endCurrent user.ID (T0 + D1)

/-- Two sessions: after `firstSession`, `StartGametime` again `G` later and the
end of that session `D2` after its start. -/
def secondSession (c : GametimeCounter) (user : User) (game : Game) (T0 D1 G D2 : Int) :
    GametimeCounter :=
  ((firstSession c user game T0 D1).StartGametime user game (T0 + D1 + G)).endCurrent
    user.ID (T0 + D1 + G + D2)

/-- The tracker after user `42` started `game` at clock reading 0 on an empty
store and `Snapshot` ran at clock reading 5. -/
def afterSnapshot (game : String) : GametimeCounter :=
  (((NewCounter ∅).StartGametime user42 { Name := game } 0).Snapshot 5).1

/-! ## Varint round trip -/

theorem lor_shiftLeft_mod (a b s : Nat) (h : a < 2 ^ s) (hb : b * 2 ^ s < 2 ^ 64) :
    a ||| ((b <<< s) % 2 ^ 64) = a + b * 2 ^ s := by
  rw [Nat.shiftLeft_eq, Nat.mod_eq_of_lt hb, Nat.or_comm, Nat.mul_comm b,
    ← Nat.mul_add_lt_is_or h b, Nat.add_comm]

set_option maxRecDepth 100000 in
theorem byte_or_continue (y : Nat) (h : y < 256) :
    128 ≤ (y ||| 128) ∧ (y ||| 128) &&& 127 = y % 128 := by
  revert y
  decide

theorem putUvarint_decodes (buf : Bytes) : ∀ (x i acc : Nat), i < 10 → i + buf.length = 10 →
    acc < 2 ^ (7 * i) → acc + x * 2 ^ (7 * i) < 2 ^ 64 →
    ∃ out n, PutUvarint buf x = some (out, n) ∧ out.length = buf.length ∧
      out.drop n = buf.drop n ∧
      UvarintLoop out i acc (7 * i) = (acc + x * 2 ^ (7 * i), (i : Int) + (n : Int)) := by
  induction buf with
  | nil =>
    intro x i acc hi hlen
    simp at hlen
    omega
  | cons b rest ih =>
    intro x i acc hi hlen hacc hx
    have hlen1 : i + 1 + rest.length = 10 := by
      simp only [List.length_cons] at hlen
      omega
    have hpow : 2 ^ (7 * (i + 1)) = 128 * 2 ^ (7 * i) := by
      rw [Nat.mul_succ, pow_add]
      norm_num
      ring
    by_cases hx128 : x ≥ 0x80
    · have hi9 : i < 9 := by
        by_contra hcon
        have h9 : i = 9 := by omega
        subst h9
        norm_num at hx
        omega
      have hlow : x % 128 * 2 ^ (7 * i) ≤ 127 * 2 ^ (7 * i) :=
        Nat.mul_le_mul_right _ (by omega)
      have hsplit : x * 2 ^ (7 * i) = x / 128 * (128 * 2 ^ (7 * i)) + x % 128 * 2 ^ (7 * i) := by
        conv_lhs => rw [← Nat.div_add_mod x 128]
        ring
      have hshift : x >>> 7 = x / 128 := by
        rw [Nat.shiftRight_eq_div_pow]
      obtain ⟨out, n, hput, hlen2, hdrop, hdec⟩ :=
        ih (x >>> 7) (i + 1) (acc + x % 128 * 2 ^ (7 * i)) (by omega) hlen1
          (by rw [hpow]; omega) (by rw [hpow, hshift]; omega)
      refine ⟨((x % 256) ||| 0x80) :: out, n + 1, ?_, ?_, ?_, ?_⟩
      · simp only [PutUvarint, if_pos hx128, hput]
      · simp only [List.length_cons, hlen2]
      · simpa using hdrop
      · have hb := byte_or_continue (x % 256) (Nat.mod_lt _ (by norm_num))
        have hmod : x % 256 % 128 = x % 128 := Nat.mod_mod_of_dvd x (by norm_num)
        have hi10 : ¬ i = MaxVarintLen64 := by
          unfold MaxVarintLen64
          omega
        have hnb : ¬ (x % 256 ||| 128) < 128 := by omega
        have hlt : x % 128 * 2 ^ (7 * i) < 2 ^ 64 := by omega
        rw [UvarintLoop, if_neg hi10, if_neg hnb, hb.2, hmod, lor_shiftLeft_mod _ _ _ hacc hlt,
          ← Nat.mul_succ, hdec, hpow, hshift, hsplit]
        refine Prod.ext ?_ ?_
        · simp only
          omega
        · simp only
          push_cast
          omega
    · have hxlt : x < 128 := by omega
      have hx256 : x % 256 = x := Nat.mod_eq_of_lt (by omega)
      refine ⟨(x % 256) :: rest, 1, ?_, ?_, ?_, ?_⟩
      · simp only [PutUvarint, if_neg hx128]
      · simp only [List.length_cons]
      · simp
      · have hi10 : ¬ i = MaxVarintLen64 := by
          unfold MaxVarintLen64
          omega
        have hover : ¬ (i = MaxVarintLen64 - 1 ∧ x > 1) := by
          rintro ⟨h9, h1⟩
          unfold MaxVarintLen64 at h9
          have h9 : i = 9 := by omega
          subst h9
          norm_num at hx
          omega
        have hlt : x * 2 ^ (7 * i) < 2 ^ 64 := by omega
        rw [hx256, UvarintLoop, if_neg hi10, if_pos hxlt, if_neg hover,
          lor_shiftLeft_mod _ _ _ hacc hlt]
        simp

theorem putVarint_roundtrip (x : Int) (hx : IsInt64 x) :
    ∃ stored n, PutVarint (makeBytes MaxVarintLen64) x = some (stored, n) ∧
      stored.length = MaxVarintLen64 ∧
      stored.drop n = List.replicate (MaxVarintLen64 - n) 0 ∧ (Varint stored).1 = x := by
  obtain ⟨hlo, hhi⟩ := hx
  -- the zig-zag value
  obtain ⟨ux, hux, hlt, hback⟩ : ∃ ux : Nat,
      (if x < 0 then 2 ^ 64 - 1 - (toUint64 x <<< 1) % 2 ^ 64 else (toUint64 x <<< 1) % 2 ^ 64) = ux ∧
      ux < 2 ^ 64 ∧ (if ux &&& 1 ≠ 0 then -toInt64 (ux >>> 1) - 1 else toInt64 (ux >>> 1)) = x := by
    have hval : toUint64 x <<< 1 % 2 ^ 64 = if x < 0 then (2 ^ 64 + 2 * x).toNat else (2 * x).toNat := by
      unfold toUint64
      rw [Nat.shiftLeft_eq]
      split <;> omega
    refine ⟨_, rfl, ?_, ?_⟩
    · split <;> omega
    · rw [hval]
      simp only [Nat.and_one_is_mod, Nat.shiftRight_eq_div_pow, toInt64]
      by_cases hneg : x < 0
      · simp only [if_pos hneg]
        have h1 : (2 ^ 64 - 1 - (2 ^ 64 + 2 * x).toNat) % 2 = 1 := by omega
        have h2 : (2 ^ 64 - 1 - (2 ^ 64 + 2 * x).toNat) / 2 ^ 1 % 2 ^ 64 < 2 ^ 63 := by omega
        rw [h1, if_pos (by norm_num), if_pos h2]
        omega
      · simp only [if_neg hneg]
        have h1 : (2 * x).toNat % 2 = 0 := by omega
        have h2 : (2 * x).toNat / 2 ^ 1 % 2 ^ 64 < 2 ^ 63 := by omega
        rw [h1, if_neg (by norm_num), if_pos h2]
        omega
  obtain ⟨out, n, hput, hlen, hdrop, hdec⟩ :=
    putUvarint_decodes (makeBytes MaxVarintLen64) ux 0 0 (by norm_num)
      (by simp [makeBytes, MaxVarintLen64]) (by norm_num) (by simpa using hlt)
  refine ⟨out, n, ?_, ?_, ?_, ?_⟩
  · simp only [PutVarint, hux, hput]
  · simpa [makeBytes] using hlen
  · simpa [makeBytes] using hdrop
  · simp only [Nat.mul_zero, pow_zero, Nat.mul_one, Nat.zero_add] at hdec
    simp only [Varint, Uvarint, hdec, hback]

/-! ## Store lemmas -/

theorem get_create (t : Tx) (name u a : String) :
    Bucket.Get (Tx.CreateBucketIfNotExists t name).1 u a = Bucket.Get t u a := by
  unfold Tx.CreateBucketIfNotExists Bucket.Get
  split
  · rfl
  · split
    · rfl
    · rename_i hnone
      by_cases hu : u = name
      · subst hu
        simp [hnone]
      · simp [AList.lookup_insert_ne hu]

theorem create_ok (t : Tx) (name : String) (h : byteLen name ≠ 0) :
    (Tx.CreateBucketIfNotExists t name).2 = none ∧
      ∃ b, (Tx.CreateBucketIfNotExists t name).1.lookup name = some b := by
  unfold Tx.CreateBucketIfNotExists
  rw [if_neg h]
  split
  · rename_i b hb
    exact ⟨rfl, b, hb⟩
  · exact ⟨rfl, ∅, AList.lookup_insert _⟩

theorem create_err (t : Tx) (name : String) (h : byteLen name = 0) :
    Tx.CreateBucketIfNotExists t name = (t, some ErrBucketNameRequired) := by
  unfold Tx.CreateBucketIfNotExists
  rw [if_pos h]

theorem put_err_state (t : Tx) (name key : String) (value : Bytes) :
    (Bucket.Put t name key value).2 ≠ none → (Bucket.Put t name key value).1 = t := by
  unfold Bucket.Put
  intro h
  by_cases h1 : byteLen key = 0
  · simp [h1]
  · by_cases h2 : byteLen key > MaxKeySize
    · simp [h1, h2]
    · by_cases h3 : value.length > MaxValueSize
      · simp [h1, h2, h3]
      · cases hb : t.lookup name with
        | none => simp [h1, h2, h3, hb]
        | some b => simp [h1, h2, h3, hb] at h

theorem put_ok (t : Tx) (name key : String) (value : Bytes) (b : Bucket)
    (h1 : byteLen key ≠ 0) (h2 : byteLen key ≤ MaxKeySize) (h3 : value.length ≤ MaxValueSize)
    (hb : t.lookup name = some b) :
    Bucket.Put t name key value = (t.insert name (b.insert key value), none) := by
  unfold Bucket.Put
  rw [if_neg h1, if_neg (by omega), if_neg (by omega)]
  simp [hb]

theorem put_ok_iff (t : Tx) (name key : String) (value : Bytes) (b : Bucket)
    (h3 : value.length ≤ MaxValueSize) (hb : t.lookup name = some b) :
    (Bucket.Put t name key value).2 = none ↔ byteLen key ≠ 0 ∧ byteLen key ≤ MaxKeySize := by
  constructor
  · intro h
    unfold Bucket.Put at h
    by_cases h1 : byteLen key = 0
    · simp [h1] at h
    · by_cases h2 : byteLen key > MaxKeySize
      · simp [h1, h2] at h
      · exact ⟨h1, by omega⟩
  · rintro ⟨h1, h2⟩
    rw [put_ok t name key value b h1 h2 h3 hb]

theorem get_insert_self (t : Tx) (name key : String) (b : Bucket) (value : Bytes) :
    Bucket.Get (t.insert name (b.insert key value)) name key = some value := by
  simp [Bucket.Get]

theorem get_insert_other (t : Tx) (name key u a : String) (b : Bucket) (value : Bytes)
    (hb : t.lookup name = some b) (hne : u ≠ name ∨ a ≠ key) :
    Bucket.Get (t.insert name (b.insert key value)) u a = Bucket.Get t u a := by
  unfold Bucket.Get
  by_cases hu : u = name
  · subst hu
    have ha : a ≠ key := by
      rcases hne with h | h
      · exact absurd rfl h
      · exact h
    simp [hb, AList.lookup_insert_ne ha]
  · simp [AList.lookup_insert_ne hu]

theorem timeSub_isInt64 (t u : Int) : IsInt64 (Time.Sub t u) := by
  unfold Time.Sub IsInt64 maxDuration minDuration
  split
  · norm_num
  · split
    · norm_num
    · rename_i h1 h2
      constructor <;> omega

/-! ## The merge of `SaveGametime` -/

theorem encodeDuration_spec (x : Int) (hx : IsInt64 x) :
    ∃ bytes, encodeDuration x = some bytes ∧ bytes.length = MaxVarintLen64 ∧
      (Varint bytes).1 = x := by
  obtain ⟨stored, n, hput, hlen, -, hdec⟩ := putVarint_roundtrip x hx
  exact ⟨stored, by simp [encodeDuration, hput], hlen, hdec⟩

/-- The value a successful `SaveGametime` stores. -/
theorem mergeValue_eq (t : Tx) (p : PlayingUser) (now : Int) :
    (match Bucket.Get t p.UserID p.Game with
      | some bPlayed => Time.Sub (Time.Add now (Varint bPlayed).1) p.StartTime
      | none => Since now p.StartTime) =
    Time.Sub (Time.Add now (storedTotal t p.UserID p.Game)) p.StartTime := by
  unfold storedTotal Since Time.Add
  split <;> simp

theorem save_ok (p : PlayingUser) (t : Tx) (now : Int)
    (hu : byteLen p.UserID ≠ 0) (hg : byteLen p.Game ≠ 0) (hk : byteLen p.Game ≤ MaxKeySize) :
    ∃ b bytes, (Tx.CreateBucketIfNotExists t p.UserID).1.lookup p.UserID = some b ∧
      (Varint bytes).1 = Time.Sub (Time.Add now (storedTotal t p.UserID p.Game)) p.StartTime ∧
      p.SaveGametime t now =
        ({ p with StartTime := now },
          (Tx.CreateBucketIfNotExists t p.UserID).1.insert p.UserID (b.insert p.Game bytes),
          none) := by
  obtain ⟨hnone, b, hb⟩ := create_ok t p.UserID hu
  have hc : Tx.CreateBucketIfNotExists t p.UserID =
      ((Tx.CreateBucketIfNotExists t p.UserID).1, none) := Prod.ext rfl hnone
  obtain ⟨bytes, henc, hlen, hdec⟩ := encodeDuration_spec
    (Time.Sub (Time.Add now (storedTotal t p.UserID p.Game)) p.StartTime) (timeSub_isInt64 _ _)
  have hsize : bytes.length ≤ MaxValueSize := by
    rw [hlen]
    decide
  have hput := put_ok _ p.UserID p.Game bytes b hg hk hsize hb
  refine ⟨b, bytes, hb, hdec, ?_⟩
  have hget := get_create t p.UserID p.UserID p.Game
  have hmv := mergeValue_eq t p now
  unfold PlayingUser.SaveGametime
  rw [hc]
  simp only
  rw [hget]
  cases hprior : Bucket.Get t p.UserID p.Game with
  | some bPlayed =>
    rw [hprior] at hmv
    simp only at hmv ⊢
    rw [hmv, henc]
    simp only
    rw [hput]
  | none =>
    rw [hprior] at hmv
    simp only at hmv ⊢
    rw [hmv, henc]
    simp only
    rw [hput]

theorem save_err (p : PlayingUser) (t : Tx) (now : Int)
    (h : ¬ (byteLen p.UserID ≠ 0 ∧ byteLen p.Game ≠ 0 ∧ byteLen p.Game ≤ MaxKeySize)) :
    (p.SaveGametime t now).2.2 ≠ none ∧ (p.SaveGametime t now).1 = p ∧
      ∀ u a, Bucket.Get (p.SaveGametime t now).2.1 u a = Bucket.Get t u a := by
  by_cases hu : byteLen p.UserID = 0
  · unfold PlayingUser.SaveGametime
    rw [create_err t p.UserID hu]
    simp
  · obtain ⟨hnone, b, hb⟩ := create_ok t p.UserID hu
    have hc : Tx.CreateBucketIfNotExists t p.UserID =
        ((Tx.CreateBucketIfNotExists t p.UserID).1, none) := Prod.ext rfl hnone
    have hkey : ¬ (byteLen p.Game ≠ 0 ∧ byteLen p.Game ≤ MaxKeySize) := fun hh => h ⟨hu, hh⟩
    have hputerr : ∀ bytes : Bytes, bytes.length ≤ MaxValueSize →
        ∃ e, (Bucket.Put (Tx.CreateBucketIfNotExists t p.UserID).1 p.UserID p.Game bytes).2
          = some e := by
      intro bytes hsize
      have := (put_ok_iff _ p.UserID p.Game bytes b hsize hb).not.mpr hkey
      exact Option.ne_none_iff_exists'.mp this
    obtain ⟨bytes, henc, hlen, -⟩ := encodeDuration_spec
      (Time.Sub (Time.Add now (storedTotal t p.UserID p.Game)) p.StartTime) (timeSub_isInt64 _ _)
    have hsize : bytes.length ≤ MaxValueSize := by
      rw [hlen]
      decide
    obtain ⟨e, he⟩ := hputerr bytes hsize
    have hput : Bucket.Put (Tx.CreateBucketIfNotExists t p.UserID).1 p.UserID p.Game bytes =
        ((Bucket.Put (Tx.CreateBucketIfNotExists t p.UserID).1 p.UserID p.Game bytes).1, some e) :=
      Prod.ext rfl he
    have hget := get_create t p.UserID p.UserID p.Game
    have hmv := mergeValue_eq t p now
    have hres : p.SaveGametime t now = (p, (Tx.CreateBucketIfNotExists t p.UserID).1, some e) := by
      unfold PlayingUser.SaveGametime
      rw [hc]
      simp only
      rw [hget]
      cases hprior : Bucket.Get t p.UserID p.Game with
      | some bPlayed =>
        rw [hprior] at hmv
        simp only at hmv ⊢
        rw [hmv, henc]
        simp only
        rw [hput]
      | none =>
        rw [hprior] at hmv
        simp only at hmv ⊢
        rw [hmv, henc]
        simp only
        rw [hput]
    rw [hres]
    refine ⟨by simp, rfl, ?_⟩
    intro u a
    exact get_create t p.UserID u a

theorem save_success_iff (p : PlayingUser) (t : Tx) (now : Int) :
    (p.SaveGametime t now).2.2 = none ↔
      (byteLen p.UserID ≠ 0 ∧ byteLen p.Game ≠ 0 ∧ byteLen p.Game ≤ MaxKeySize) := by
  constructor
  · intro h
    by_contra hcon
    exact (save_err p t now hcon).1 h
  · rintro ⟨hu, hg, hk⟩
    obtain ⟨b, bytes, -, -, hres⟩ := save_ok p t now hu hg hk
    rw [hres]

theorem save_get_self (p : PlayingUser) (t : Tx) (now : Int)
    (h : (p.SaveGametime t now).2.2 = none) :
    ∃ bytes, Bucket.Get (p.SaveGametime t now).2.1 p.UserID p.Game = some bytes ∧
      (Varint bytes).1 = Time.Sub (Time.Add now (storedTotal t p.UserID p.Game)) p.StartTime := by
  obtain ⟨hu, hg, hk⟩ := (save_success_iff p t now).mp h
  obtain ⟨b, bytes, -, hdec, hres⟩ := save_ok p t now hu hg hk
  refine ⟨bytes, ?_, hdec⟩
  rw [hres]
  exact get_insert_self _ _ _ _ _

theorem save_get_other (p : PlayingUser) (t : Tx) (now : Int) (u a : String)
    (hne : u ≠ p.UserID ∨ a ≠ p.Game) :
    Bucket.Get (p.SaveGametime t now).2.1 u a = Bucket.Get t u a := by
  by_cases h : byteLen p.UserID ≠ 0 ∧ byteLen p.Game ≠ 0 ∧ byteLen p.Game ≤ MaxKeySize
  · obtain ⟨b, bytes, hb, -, hres⟩ := save_ok p t now h.1 h.2.1 h.2.2
    rw [hres]
    simp only
    rw [get_insert_other _ _ _ _ _ _ _ hb hne, get_create]
  · exact (save_err p t now h).2.2 u a

theorem save_total_self (p : PlayingUser) (t : Tx) (now : Int)
    (h : (p.SaveGametime t now).2.2 = none) :
    storedTotal (p.SaveGametime t now).2.1 p.UserID p.Game =
      Time.Sub (Time.Add now (storedTotal t p.UserID p.Game)) p.StartTime := by
  obtain ⟨bytes, hget, hdec⟩ := save_get_self p t now h
  rw [storedTotal, hget]
  exact hdec

/-! ## Reading the totals -/

theorem foldl_insert_lookup (l : List (Sigma fun _ : String => Bytes)) (a : String) :
    l.NodupKeys → ∀ acc : GameMap,
    (l.foldl (fun (gameMap : GameMap) e => gameMap.insert e.1 (Varint e.2).1) acc).lookup a =
      match List.dlookup a l with
      | some v => some (Varint v).1
      | none => acc.lookup a := by
  induction l with
  | nil =>
    intro _ acc
    simp
  | cons e rest ih =>
    intro hnd acc
    obtain ⟨hnot, hrest⟩ := List.nodupKeys_cons.mp hnd
    rw [List.foldl_cons, ih hrest]
    by_cases ha : a = e.1
    · subst ha
      have hnone : List.dlookup e.1 rest = none := List.dlookup_eq_none.mpr hnot
      rw [hnone, List.dlookup_cons_eq]
      simp
    · rw [List.dlookup_cons_ne _ _ ha]
      cases List.dlookup a rest with
      | none => simp [AList.lookup_insert_ne ha]
      | some v => rfl

theorem getUserGametime_some (c : GametimeCounter) (user : User) (b : Bucket)
    (hb : Tx.Bucket c.DB user.ID = some b) :
    (c.GetUserGametime user).2 = none ∧
      ∀ a, (c.GetUserGametime user).1.lookup a = (b.lookup a).map (fun v => (Varint v).1) := by
  unfold GametimeCounter.GetUserGametime
  rw [hb]
  refine ⟨rfl, ?_⟩
  intro a
  simp only
  rw [foldl_insert_lookup b.entries a b.nodupKeys ∅]
  unfold AList.lookup
  cases List.dlookup a b.entries with
  | none => simp
  | some v => rfl

theorem getUserGametime_none (c : GametimeCounter) (user : User)
    (hb : Tx.Bucket c.DB user.ID = none) :
    c.GetUserGametime user = (∅, some "user never played") := by
  unfold GametimeCounter.GetUserGametime
  rw [hb]

/-! ## Claims -/

/-- C8: for every signed 64-bit integer `x`, the extremes included, what the
code stores for `x` - the whole zero-filled buffer of `binary.MaxVarintLen64`
bytes after `binary.PutVarint` wrote the zig-zag varint of `x` at its front,
the bytes behind the varint still zero - decodes with `binary.Varint` to
exactly `x`. -/
theorem stored_duration_roundtrip (x : Int) (hlo : -(2 ^ 63) ≤ x) (hhi : x < 2 ^ 63) :
    ∃ stored n, PutVarint (makeBytes MaxVarintLen64) x = some (stored, n) ∧
      encodeDuration x = some stored ∧
      stored.length = MaxVarintLen64 ∧
      stored.drop n = List.replicate (MaxVarintLen64 - n) 0 ∧
      (Varint stored).1 = x := by
  obtain ⟨stored, n, hput, hlen, hdrop, hdec⟩ := putVarint_roundtrip x ⟨hlo, hhi⟩
  exact ⟨stored, n, hput, by simp [encodeDuration, hput], hlen, hdrop, hdec⟩

/-- The round trip of C8 at the least `int64`. -/
theorem stored_duration_roundtrip_witness :
    ∃ stored n, PutVarint (makeBytes MaxVarintLen64) (-(2 ^ 63)) = some (stored, n) ∧
      encodeDuration (-(2 ^ 63)) = some stored ∧
      stored.length = MaxVarintLen64 ∧
      stored.drop n = List.replicate (MaxVarintLen64 - n) 0 ∧
      (Varint stored).1 = -(2 ^ 63) :=
  stored_duration_roundtrip (-(2 ^ 63)) (by decide) (by decide)

/-- C5: `GetUserGametime(u)` returns the error "user never played" exactly when
the store has no bucket for `u`, and then no successful result is delivered;
when the bucket exists the error is `nil` and the returned map has, for every
game name, the decoded value stored under it and nothing else. -/
theorem getUserGametime_fails_iff_unknown (c : GametimeCounter) (user : User) :
    ((c.GetUserGametime user).2 = some "user never played" ↔ Tx.Bucket c.DB user.ID = none) ∧
    ((c.GetUserGametime user).2 ≠ none ↔ Tx.Bucket c.DB user.ID = none) ∧
    (∀ b, Tx.Bucket c.DB user.ID = some b →
      (c.GetUserGametime user).2 = none ∧
      ∀ a, (c.GetUserGametime user).1.lookup a = (b.lookup a).map (fun v => (Varint v).1)) := by
  cases hb : Tx.Bucket c.DB user.ID with
  | none =>
    rw [getUserGametime_none c user hb]
    simp
  | some b =>
    obtain ⟨herr, hmap⟩ := getUserGametime_some c user b hb
    rw [herr]
    refine ⟨by simp, by simp, ?_⟩
    intro b2 hb2
    cases hb2
    exact ⟨rfl, hmap⟩

/-- C6: when the bucket of user `u` holds exactly one game and it is `g`,
`ResetOneGametime(u, g)` returns `nil` and deletes the bucket, so that
`GetUserGametime(u)` then returns "user never played", and every other
user's bucket is as before; when `u` has no bucket it returns "User unknown"
and the tracker and store are as before. -/
theorem resetOneGametime_sole_game (c : GametimeCounter) (user : User) (g : String) :
    (∀ b v, Tx.Bucket c.DB user.ID = some b → Bucket.KeyN b = 1 → b.lookup g = some v →
      (c.ResetOneGametime user g).2 = none ∧
      Tx.Bucket (c.ResetOneGametime user g).1.DB user.ID = none ∧
      ((c.ResetOneGametime user g).1.GetUserGametime user).2 = some "user never played" ∧
      ∀ u, u ≠ user.ID → Tx.Bucket (c.ResetOneGametime user g).1.DB u = Tx.Bucket c.DB u) ∧
    (Tx.Bucket c.DB user.ID = none → c.ResetOneGametime user g = (c, some "User unknown")) := by
  constructor
  · intro b v hb hn _
    have hlook : c.DB.lookup user.ID = some b := hb
    have hres : c.ResetOneGametime user g =
        ({ c with DB := c.DB.erase user.ID }, none) := by
      simp [GametimeCounter.ResetOneGametime, DB.Update, hb, hn, Tx.DeleteBucket, hlook]
    rw [hres]
    have hgone : Tx.Bucket (c.DB.erase user.ID) user.ID = none := AList.lookup_erase _ _
    refine ⟨rfl, hgone, ?_, ?_⟩
    · rw [getUserGametime_none _ user hgone]
    · intro u hu
      exact AList.lookup_erase_ne hu
  · intro hb
    simp [GametimeCounter.ResetOneGametime, DB.Update, hb]

/-- The first part of C6 on the store whose only bucket holds only Chess. -/
theorem resetOneGametime_sole_game_witness :
    ((NewCounter (oneGameStore "Chess" fiveNs)).ResetOneGametime user42 "Chess").2 = none ∧
    ((((NewCounter (oneGameStore "Chess" fiveNs)).ResetOneGametime user42 "Chess").1).GetUserGametime
      user42).2 = some "user never played" :=
  have h := (resetOneGametime_sole_game (NewCounter (oneGameStore "Chess" fiveNs)) user42
    "Chess").1 ((∅ : Bucket).insert "Chess" fiveNs) fiveNs (by decide) (by decide) (by decide)
  ⟨h.1, h.2.2.1⟩

/-- C7: when user `u` has a bucket, `ResetGametime(u)` returns `nil`,
`GetUserGametime(u)` then returns "user never played", and every other
user's bucket is as before; when `u` has no bucket it returns an error and
the tracker and store are as before. -/
theorem resetGametime_removes_one_user (c : GametimeCounter) (user : User) :
    (∀ b, Tx.Bucket c.DB user.ID = some b →
      (c.ResetGametime user).2 = none ∧
      ((c.ResetGametime user).1.GetUserGametime user).2 = some "user never played" ∧
      (c.ResetGametime user).1.InProgress = c.InProgress ∧
      ∀ u, u ≠ user.ID → Tx.Bucket (c.ResetGametime user).1.DB u = Tx.Bucket c.DB u) ∧
    (Tx.Bucket c.DB user.ID = none →
      (c.ResetGametime user).2 = some ErrBucketNotFound ∧ (c.ResetGametime user).1 = c) := by
  constructor
  · intro b hb
    have hlook : c.DB.lookup user.ID = some b := hb
    have hres : c.ResetGametime user = ({ c with DB := c.DB.erase user.ID }, none) := by
      simp [GametimeCounter.ResetGametime, DB.Update, Tx.DeleteBucket, hlook]
    rw [hres]
    have hgone : Tx.Bucket (c.DB.erase user.ID) user.ID = none := AList.lookup_erase _ _
    refine ⟨rfl, ?_, rfl, ?_⟩
    · rw [getUserGametime_none _ user hgone]
    · intro u hu
      exact AList.lookup_erase_ne hu
  · intro hb
    have hlook : c.DB.lookup user.ID = none := hb
    simp [GametimeCounter.ResetGametime, DB.Update, Tx.DeleteBucket, hlook]

/-- The first part of C7 on the store whose only bucket is the one of user `42`. -/
theorem resetGametime_removes_one_user_witness :
    ((NewCounter (oneGameStore "Chess" fiveNs)).ResetGametime user42).2 = none ∧
    ((((NewCounter (oneGameStore "Chess" fiveNs)).ResetGametime user42).1).GetUserGametime
      user42).2 = some "user never played" :=
  have h := (resetGametime_removes_one_user (NewCounter (oneGameStore "Chess" fiveNs)) user42).1
    ((∅ : Bucket).insert "Chess" fiveNs) (by decide)
  ⟨h.1, h.2.1⟩

theorem timeSub_eq_of_fits (t u : Int) (h : IsInt64 (t - u)) : Time.Sub t u = t - u := by
  unfold IsInt64 at h
  unfold Time.Sub maxDuration minDuration
  rw [if_neg (by omega), if_neg (by omega)]

/-- C1, as stated, fails: the store holds the prior total `P = 2^63 - 1` for
user `42` and Chess, the session started at 0 and the clock reads 1; the save
succeeds and the entry decodes to `2^63 - 1`, not to `P + (1 - 0)`. -/
theorem saveGametime_merge_saturates :
    (chessSession.SaveGametime (oneGameStore "Chess" maxNs) 1).2.2 = none ∧
    (Bucket.Get (oneGameStore "Chess" maxNs) "42" "Chess").map (fun b => (Varint b).1)
      = some (2 ^ 63 - 1) ∧
    (Bucket.Get (chessSession.SaveGametime (oneGameStore "Chess" maxNs) 1).2.1 "42" "Chess").map
      (fun b => (Varint b).1) = some (2 ^ 63 - 1) ∧
    ((2 : Int) ^ 63 - 1) ≠ (2 ^ 63 - 1) + (1 - chessSession.StartTime) := by
  set_option maxRecDepth 100000 in decide

/-- C1, amended: after a successful `SaveGametime` at the clock reading `now`
of a session that started at `s`, an entry that decoded to the prior total
`P` decodes to `P + (now - s)` whenever that sum is a signed 64-bit integer,
and an entry that did not exist is created and decodes to `now - s` whenever
that difference is a signed 64-bit integer. -/
theorem saveGametime_merge (p : PlayingUser) (t : Tx) (now : Int)
    (hok : (p.SaveGametime t now).2.2 = none) :
    (∀ prior, Bucket.Get t p.UserID p.Game = some prior →
      IsInt64 ((Varint prior).1 + (now - p.StartTime)) →
      ∃ bytes, Bucket.Get (p.SaveGametime t now).2.1 p.UserID p.Game = some bytes ∧
        (Varint bytes).1 = (Varint prior).1 + (now - p.StartTime)) ∧
    (Bucket.Get t p.UserID p.Game = none → IsInt64 (now - p.StartTime) →
      ∃ bytes, Bucket.Get (p.SaveGametime t now).2.1 p.UserID p.Game = some bytes ∧
        (Varint bytes).1 = now - p.StartTime) := by
  obtain ⟨bytes, hget, hdec⟩ := save_get_self p t now hok
  constructor
  · intro prior hprior hfit
    refine ⟨bytes, hget, ?_⟩
    rw [hdec, storedTotal, hprior]
    simp only [Time.Add]
    rw [timeSub_eq_of_fits _ _ (by
      have : now + (Varint prior).1 - p.StartTime = (Varint prior).1 + (now - p.StartTime) := by
        omega
      rw [this]
      exact hfit)]
    omega
  · intro hnone hfit
    refine ⟨bytes, hget, ?_⟩
    rw [hdec, storedTotal, hnone]
    simp only [Time.Add, Int.add_zero]
    exact timeSub_eq_of_fits _ _ hfit

/-- The merge of C1 on a prior total of 5 ns, for a session from 0 to 3. -/
theorem saveGametime_merge_witness :
    ∃ bytes, Bucket.Get (chessSession.SaveGametime (oneGameStore "Chess" fiveNs) 3).2.1
        "42" "Chess" = some bytes ∧
      (Varint bytes).1 = (Varint fiveNs).1 + (3 - chessSession.StartTime) :=
  (saveGametime_merge chessSession (oneGameStore "Chess" fiveNs) 3
    (by set_option maxRecDepth 100000 in decide)).1 fiveNs (by decide) (by decide)

/-- C2 fails on the code: `Snapshot` never changes the active map; so when
user `42` starts Chess at 0 with no prior record and `Snapshot` runs at 5 and
stores 5, the entry of the active map still starts at 0, and the end of that
entry at 8 stores 13 where the span from start to end is 8. -/
theorem snapshot_then_end_counts_twice :
    (∀ (c : GametimeCounter) (now : Int), (c.Snapshot now).1.InProgress = c.InProgress) ∧
    storedTotal (afterSnapshot "Chess").DB "42" "Chess" = 5 ∧
    (afterSnapshot "Chess").InProgress.lookup "42" = some chessSession ∧
    chessSession.StartTime = 0 ∧
    storedTotal ((afterSnapshot "Chess").endCurrent "42" 8).DB "42" "Chess" = 13 ∧
    (((afterSnapshot "Chess").endCurrent "42" 8).GetUserGametime user42).1.lookup "Chess"
      = some 13 := by
  refine ⟨fun _ _ => rfl, ?_⟩
  set_option maxRecDepth 100000 in decide

/-- C4 fails on the code: the bucket of user `42` holds only Chess, with 5 ns;
`ResetOneGametime(42, "Go")` returns `nil` and the whole bucket is gone, the
Chess total with it. -/
theorem resetOneGametime_other_game_deletes_record :
    storedTotal (NewCounter (oneGameStore "Chess" fiveNs)).DB "42" "Chess" = 5 ∧
    ((NewCounter (oneGameStore "Chess" fiveNs)).ResetOneGametime user42 "Go").2 = none ∧
    Tx.Bucket ((NewCounter (oneGameStore "Chess" fiveNs)).ResetOneGametime user42 "Go").1.DB "42"
      = none ∧
    Bucket.Get ((NewCounter (oneGameStore "Chess" fiveNs)).ResetOneGametime user42 "Go").1.DB
      "42" "Chess" = none := by
  set_option maxRecDepth 100000 in decide

/-- C10 fails on the code: user `42` starts a game whose name is empty, on an
empty store; `Snapshot` creates the bucket, the `Put` fails on the empty key,
the error is logged and the transaction commits: the bucket of `42` exists
with no entry and `GetUserGametime` returns an empty map and no error. -/
theorem snapshot_leaves_empty_record :
    ((NewCounter ∅).StartGametime user42 { Name := "" } 0).DB = ∅ ∧
    ({ UserID := "42", StartTime := 0, Game := "" } : PlayingUser).SaveGametime ∅ 5
      = ({ UserID := "42", StartTime := 0, Game := "" }, (∅ : Store).insert "42" ∅,
          some ErrKeyRequired) ∧
    Tx.Bucket (afterSnapshot "").DB "42" = some ∅ ∧
    (afterSnapshot "").GetUserGametime user42 = (∅, none) := by
  set_option maxRecDepth 100000 in decide

theorem endGametime_db (c : GametimeCounter) (pUser : PlayingUser) (now : Int) :
    (c.EndGametime pUser now).DB =
      if (pUser.SaveGametime c.DB now).2.2 = none then (pUser.SaveGametime c.DB now).2.1
      else c.DB := by
  unfold GametimeCounter.EndGametime DB.Update
  rcases hs : (pUser.SaveGametime c.DB now).2 with ⟨t, e⟩
  cases e with
  | none => simp [hs]
  | some e => simp [hs]

theorem endCurrent_start (c : GametimeCounter) (user : User) (game : Game) (t0 now : Int) :
    (c.StartGametime user game t0).endCurrent user.ID now =
      (c.StartGametime user game t0).EndGametime
        { UserID := user.ID, StartTime := t0, Game := game.Name } now := by
  unfold GametimeCounter.endCurrent
  simp [GametimeCounter.StartGametime]

theorem getUserGametime_of_get (c : GametimeCounter) (user : User) (a : String) (bytes : Bytes)
    (h : Bucket.Get c.DB user.ID a = some bytes) :
    (c.GetUserGametime user).2 = none ∧
      (c.GetUserGametime user).1.lookup a = some (Varint bytes).1 := by
  unfold Bucket.Get at h
  cases hb : c.DB.lookup user.ID with
  | none => simp [hb] at h
  | some b =>
    rw [hb] at h
    obtain ⟨herr, hmap⟩ := getUserGametime_some c user b hb
    refine ⟨herr, ?_⟩
    rw [hmap a]
    simp only [Option.some_bind] at h
    rw [h]
    rfl

theorem get_none_of_no_bucket (t : Tx) (u a : String) (h : Tx.Bucket t u = none) :
    Bucket.Get t u a = none := by
  unfold Tx.Bucket at h
  simp [Bucket.Get, h]

/-- The total read back after a session of a user handed to `EndGametime` by
a start at `t0` and an end at `now`, for names the store accepts. -/
theorem session_total (c : GametimeCounter) (user : User) (game : Game) (t0 now : Int)
    (hu : byteLen user.ID ≠ 0) (hg : byteLen game.Name ≠ 0) (hk : byteLen game.Name ≤ MaxKeySize)
    (hfit : IsInt64 (storedTotal c.DB user.ID game.Name + (now - t0))) :
    (((c.StartGametime user game t0).endCurrent user.ID now).GetUserGametime user).2 = none ∧
    (((c.StartGametime user game t0).endCurrent user.ID now).GetUserGametime user).1.lookup
      game.Name = some (storedTotal c.DB user.ID game.Name + (now - t0)) ∧
    storedTotal ((c.StartGametime user game t0).endCurrent user.ID now).DB user.ID game.Name
      = storedTotal c.DB user.ID game.Name + (now - t0) := by
  have hok : (({ UserID := user.ID, StartTime := t0, Game := game.Name } :
      PlayingUser).SaveGametime c.DB now).2.2 = none :=
    (save_success_iff _ _ _).mpr ⟨hu, hg, hk⟩
  obtain ⟨bytes, hget, hdec⟩ := save_get_self _ c.DB now hok
  have hdb : ((c.StartGametime user game t0).endCurrent user.ID now).DB =
      (({ UserID := user.ID, StartTime := t0, Game := game.Name } :
        PlayingUser).SaveGametime c.DB now).2.1 := by
    rw [endCurrent_start, endGametime_db]
    simp only [GametimeCounter.StartGametime]
    rw [if_pos hok]
  simp only at hget hdec
  have hval : (Varint bytes).1 = storedTotal c.DB user.ID game.Name + (now - t0) := by
    rw [hdec]
    simp only [Time.Add]
    rw [timeSub_eq_of_fits _ _ (by
      have : now + storedTotal c.DB user.ID game.Name - t0
          = storedTotal c.DB user.ID game.Name + (now - t0) := by omega
      rw [this]
      exact hfit)]
    omega
  rw [← hdb] at hget
  obtain ⟨herr, hmap⟩ := getUserGametime_of_get _ user game.Name bytes hget
  refine ⟨herr, ?_, ?_⟩
  · rw [hmap, hval]
  · rw [storedTotal, hget]
    exact hval

/-- C3, amended: for a user id the store accepts as a bucket name (not
empty) and a game name it accepts as a key (not empty, at most `MaxKeySize`
bytes), from a store with no bucket for the user, for durations `D1, D2 >= 0`
with `D1 + D2 < 2^63` and every gap `G >= 0`: after `StartGametime` at `T0`
and the end of that session at `T0 + D1`, `GetUserGametime` returns `D1` for
the game; after a second `StartGametime` at `T0 + D1 + G` and the end of that
session at `T0 + D1 + G + D2` it returns `D1 + D2`, whatever `G` is. -/
theorem consecutive_sessions_add (c : GametimeCounter) (user : User) (game : Game)
    (T0 D1 G D2 : Int)
    (hu : byteLen user.ID ≠ 0) (hg : byteLen game.Name ≠ 0) (hk : byteLen game.Name ≤ MaxKeySize)
    (hnew : Tx.Bucket c.DB user.ID = none)
    (h1 : 0 ≤ D1) (_ : 0 ≤ G) (h2 : 0 ≤ D2) (hfit : D1 + D2 < 2 ^ 63) :
    ((firstSession c user game T0 D1).GetUserGametime user).2 = none ∧
    ((firstSession c user game T0 D1).GetUserGametime user).1.lookup game.Name = some D1 ∧
    ((secondSession c user game T0 D1 G D2).GetUserGametime user).2 = none ∧
    ((secondSession c user game T0 D1 G D2).GetUserGametime user).1.lookup game.Name
      = some (D1 + D2) := by
  have hzero : storedTotal c.DB user.ID game.Name = 0 := by
    rw [storedTotal, get_none_of_no_bucket _ _ _ hnew]
  have hfit1 : IsInt64 (storedTotal c.DB user.ID game.Name + (T0 + D1 - T0)) := by
    rw [hzero]
    constructor <;> omega
  obtain ⟨herr1, hmap1, htot1⟩ := session_total c user game T0 (T0 + D1) hu hg hk hfit1
  have htot1b : storedTotal (firstSession c user game T0 D1).DB user.ID game.Name = D1 := by
    unfold firstSession
    rw [htot1, hzero]
    omega
  have hfit2 : IsInt64 (storedTotal (firstSession c user game T0 D1).DB user.ID game.Name
      + (T0 + D1 + G + D2 - (T0 + D1 + G))) := by
    rw [htot1b]
    constructor <;> omega
  obtain ⟨herr2, hmap2, -⟩ := session_total (firstSession c user game T0 D1) user game
    (T0 + D1 + G) (T0 + D1 + G + D2) hu hg hk hfit2
  refine ⟨herr1, ?_, herr2, ?_⟩
  · unfold firstSession
    rw [hmap1, hzero]
    congr 1
    omega
  · unfold secondSession
    rw [hmap2, htot1b]
    congr 1
    omega

/-- The scenario of the specification: 5 s, a gap of 5 s, then 3 s give 8 s. -/
theorem consecutive_sessions_add_witness :
    ((secondSession (NewCounter ∅) user42 { Name := "Chess" } 0 5000000000 5000000000
      3000000000).GetUserGametime user42).1.lookup "Chess" = some (5000000000 + 3000000000) :=
  (consecutive_sessions_add (NewCounter ∅) user42 { Name := "Chess" } 0 5000000000 5000000000
    3000000000 (by decide) (by decide) (by decide) (by decide) (by decide) (by decide)
    (by decide) (by decide)).2.2.2

theorem utf8ByteSize_go_replicate (n : Nat) :
    String.utf8ByteSize.go (List.replicate n 'a') = n := by
  induction n with
  | zero => rfl
  | succ k ih =>
    rw [List.replicate_succ, String.utf8ByteSize.go.eq_def]
    simp only
    rw [ih]
    rfl

theorem byteLen_replicate (n : Nat) : byteLen (String.mk (List.replicate n 'a')) = n :=
  utf8ByteSize_go_replicate n

theorem session_rejected (c : GametimeCounter) (user : User) (game : Game) (t0 now : Int)
    (h : ¬ (byteLen user.ID ≠ 0 ∧ byteLen game.Name ≠ 0 ∧ byteLen game.Name ≤ MaxKeySize)) :
    ((c.StartGametime user game t0).endCurrent user.ID now).DB = c.DB := by
  rw [endCurrent_start, endGametime_db]
  simp only [GametimeCounter.StartGametime]
  rw [if_neg (save_err _ c.DB now h).1]

/-- C3, as stated, fails in three ways, each from an empty store and for user
`42`: with the empty game name (sessions of 5 and 3 after a gap of 5) both
saves fail and `GetUserGametime` returns "user never played"; with a game
name of 32769 bytes the same; with Chess, `D1 = 2^63 - 1`, no gap and
`D2 = 1` the total read back is `2^63 - 1`, not `D1 + D2`. -/
theorem consecutive_sessions_fail :
    ((secondSession (NewCounter ∅) user42 { Name := "" } 0 5 5 3).GetUserGametime user42).2
      = some "user never played" ∧
    ((secondSession (NewCounter ∅) user42 { Name := longName } 0 5 5 3).GetUserGametime user42).2
      = some "user never played" ∧
    ((secondSession (NewCounter ∅) user42 { Name := "Chess" } 0 (2 ^ 63 - 1) 0
      1).GetUserGametime user42).1.lookup "Chess" = some (2 ^ 63 - 1) ∧
    ((2 : Int) ^ 63 - 1) ≠ (2 ^ 63 - 1) + 1 := by
  have hlong : ¬ (byteLen user42.ID ≠ 0 ∧ byteLen longName ≠ 0 ∧
      byteLen longName ≤ MaxKeySize) := by
    rw [longName, byteLen_replicate]
    decide
  have hdb : (secondSession (NewCounter ∅) user42 { Name := longName } 0 5 5 3).DB = ∅ := by
    unfold secondSession firstSession
    rw [session_rejected _ user42 { Name := longName } _ _ hlong,
      session_rejected _ user42 { Name := longName } _ _ hlong]
    rfl
  refine ⟨?_, ?_, ?_, ?_⟩
  · set_option maxRecDepth 100000 in decide
  · rw [getUserGametime_none _ _ (by rw [hdb]; rfl)]
  · set_option maxRecDepth 100000 in decide
  · decide

/-! ## Totals never decrease -/

theorem toInt64_isInt64 (u : Nat) : IsInt64 (toInt64 u) := by
  unfold toInt64 IsInt64
  split <;> constructor <;> omega

theorem varint_isInt64 (b : Bytes) : IsInt64 (Varint b).1 := by
  have h := toInt64_isInt64 ((Uvarint b).1 >>> 1)
  unfold Varint
  simp only
  unfold IsInt64 at h ⊢
  split <;> constructor <;> omega

theorem storedTotal_isInt64 (t : Tx) (u a : String) : IsInt64 (storedTotal t u a) := by
  unfold storedTotal
  split
  · exact varint_isInt64 _
  · unfold IsInt64
    constructor <;> norm_num

theorem le_timeSub_add (now s P : Int) (hs : s ≤ now) (hP : IsInt64 P) :
    P ≤ Time.Sub (Time.Add now P) s := by
  unfold IsInt64 at hP
  unfold Time.Sub Time.Add maxDuration minDuration
  split
  · omega
  · split <;> omega

theorem save_total_mono (p : PlayingUser) (t : Tx) (now : Int) (hs : p.StartTime ≤ now)
    (u a : String) :
    storedTotal t u a ≤ storedTotal (p.SaveGametime t now).2.1 u a := by
  by_cases hself : u = p.UserID ∧ a = p.Game
  · obtain ⟨hu, ha⟩ := hself
    subst hu ha
    by_cases hok : (p.SaveGametime t now).2.2 = none
    · rw [save_total_self p t now hok]
      exact le_timeSub_add now p.StartTime _ hs (storedTotal_isInt64 _ _ _)
    · have hcond := (save_success_iff p t now).not.mp hok
      have hsame := (save_err p t now hcond).2.2 p.UserID p.Game
      unfold storedTotal
      rw [hsame]
  · have hne : u ≠ p.UserID ∨ a ≠ p.Game := by
      by_contra hcon
      push_neg at hcon
      exact hself hcon
    unfold storedTotal
    rw [save_get_other p t now u a hne]

theorem snapshot_fold_mono (now : Int) (u a : String)
    (l : List (Sigma fun _ : String => PlayingUser)) :
    (∀ e ∈ l, e.2.StartTime ≤ now) → ∀ t : Tx,
    storedTotal t u a ≤
      storedTotal (l.foldl (fun t e => (e.2.SaveGametime t now).2.1) t) u a := by
  induction l with
  | nil =>
    intro _ t
    exact le_refl _
  | cons e rest ih =>
    intro hall t
    rw [List.foldl_cons]
    exact le_trans (save_total_mono e.2 t now (hall e (List.mem_cons_self _ _)) u a)
      (ih (fun e2 he2 => hall e2 (List.mem_cons_of_mem _ he2)) _)

theorem snapshot_db (c : GametimeCounter) (now : Int) :
    (c.Snapshot now).1.DB =
      c.InProgress.entries.foldl (fun t e => (e.2.SaveGametime t now).2.1) c.DB := by
  simp [GametimeCounter.Snapshot, DB.Update]

theorem step_mono (c : GametimeCounter) (t0 now : Int) (ev : Event)
    (hinv : SessionsStartedBy c t0) (hclock : t0 ≤ now) (hev : ev.startedBy now = true) :
    SessionsStartedBy (c.step now ev) now ∧
      ∀ u a, storedTotal c.DB u a ≤ storedTotal (c.step now ev).DB u a := by
  have hinv2 : ∀ e ∈ c.InProgress.entries, e.2.StartTime ≤ now :=
    fun e he => le_trans (hinv e he) hclock
  cases ev with
  | start user game =>
    constructor
    · intro e he
      simp only [GametimeCounter.step, GametimeCounter.StartGametime, AList.insert_entries,
        List.mem_cons] at he
      rcases he with he | he
      · rw [he]
      · exact hinv2 e ((List.kerase_sublist _ _).subset he)
    · intro u a
      exact le_refl _
  | finish pUser =>
    have hs : pUser.StartTime ≤ now := by
      simpa [Event.startedBy] using hev
    constructor
    · intro e he
      have he2 : e ∈ List.kerase pUser.UserID c.InProgress.entries := he
      exact hinv2 e ((List.kerase_sublist _ _).subset he2)
    · intro u a
      simp only [GametimeCounter.step]
      rw [endGametime_db]
      split
      · exact save_total_mono pUser c.DB now hs u a
      · exact le_refl _
  | snapshot =>
    constructor
    · intro e he
      exact hinv2 e he
    · intro u a
      simp only [GametimeCounter.step]
      rw [snapshot_db]
      exact snapshot_fold_mono now u a _ hinv2 c.DB

theorem run_mono (tr : List (Int × Event)) : ∀ (c : GametimeCounter) (t0 : Int),
    SessionsStartedBy c t0 → ValidRun t0 tr = true →
    ∀ u a, storedTotal c.DB u a ≤ storedTotal (c.run tr).DB u a := by
  induction tr with
  | nil =>
    intro c t0 _ _ u a
    exact le_refl _
  | cons head rest ih =>
    intro c t0 hinv hvalid u a
    obtain ⟨now, ev⟩ := head
    simp only [ValidRun, Bool.and_eq_true, decide_eq_true_eq] at hvalid
    obtain ⟨⟨hclock, hev⟩, hrest⟩ := hvalid
    obtain ⟨hinv2, hmono⟩ := step_mono c t0 now ev hinv hclock hev
    exact le_trans (hmono u a) (ih (c.step now ev) now hinv2 hrest u a)

theorem run_extend_mono (pre : List (Int × Event)) : ∀ (suf : List (Int × Event))
    (c : GametimeCounter) (t0 : Int),
    SessionsStartedBy c t0 → ValidRun t0 (pre ++ suf) = true →
    ∀ u a, storedTotal (c.run pre).DB u a ≤ storedTotal (c.run (pre ++ suf)).DB u a := by
  induction pre with
  | nil =>
    intro suf c t0 hinv hvalid u a
    exact run_mono suf c t0 hinv hvalid u a
  | cons head rest ih =>
    intro suf c t0 hinv hvalid u a
    obtain ⟨now, ev⟩ := head
    simp only [List.cons_append, ValidRun, Bool.and_eq_true, decide_eq_true_eq] at hvalid
    obtain ⟨⟨hclock, hev⟩, hrest⟩ := hvalid
    obtain ⟨hinv2, -⟩ := step_mono c t0 now ev hinv hclock hev
    exact ih suf (c.step now ev) now hinv2 hrest u a

/-- C9, as stated, fails in its last part: on the store that holds -10 ns for
user `42` and Chess, with no session in progress, the calls `StartGametime`
at 0 and `EndGametime` of that session at 4 run under a clock that does not
go back and use no reset, and the total they leave is -6: not below -10, but
negative. -/
theorem totals_negative_from_negative_store :
    SessionsStartedBy (NewCounter (oneGameStore "Chess" minusTenNs)) 0 ∧
    ValidRun 0 startThenFinish = true ∧
    storedTotal (NewCounter (oneGameStore "Chess" minusTenNs)).DB "42" "Chess" = -10 ∧
    storedTotal ((NewCounter (oneGameStore "Chess" minusTenNs)).run startThenFinish).DB
      "42" "Chess" = -6 ∧
    ¬ (0 ≤ storedTotal ((NewCounter (oneGameStore "Chess" minusTenNs)).run startThenFinish).DB
      "42" "Chess") := by
  set_option maxRecDepth 100000 in decide

/-- C9, amended: a successful `SaveGametime` of a session that started no later
than the clock reading leaves a decoded total for its user and game that is
not below the one before (no entry counting as zero), when prior + (now - s)
is a signed 64-bit integer; and along every sequence of `StartGametime`,
`EndGametime` and `Snapshot` calls under a clock that does not go back, with
no reset, every total after a longer run is not below the total after a
shorter one, and no total is negative when none was negative in the store at
the start, as on the empty store. -/
theorem totals_never_decrease :
    (∀ (p : PlayingUser) (t : Tx) (now : Int), p.StartTime ≤ now →
      IsInt64 (storedTotal t p.UserID p.Game + (now - p.StartTime)) →
      (p.SaveGametime t now).2.2 = none →
      storedTotal t p.UserID p.Game ≤ storedTotal (p.SaveGametime t now).2.1 p.UserID p.Game) ∧
    (∀ (c : GametimeCounter) (t0 : Int) (pre suf : List (Int × Event)) (u a : String),
      SessionsStartedBy c t0 → ValidRun t0 (pre ++ suf) = true →
      storedTotal (c.run pre).DB u a ≤ storedTotal (c.run (pre ++ suf)).DB u a) ∧
    (∀ (c : GametimeCounter) (t0 : Int) (calls : List (Int × Event)),
      SessionsStartedBy c t0 → ValidRun t0 calls = true →
      (∀ u a, 0 ≤ storedTotal c.DB u a) → ∀ u a, 0 ≤ storedTotal (c.run calls).DB u a) ∧
    (∀ (t0 : Int) (calls : List (Int × Event)) (u a : String), ValidRun t0 calls = true →
      0 ≤ storedTotal ((NewCounter ∅).run calls).DB u a) := by
  refine ⟨?_, ?_, ?_, ?_⟩
  · intro p t now hs _ _
    exact save_total_mono p t now hs p.UserID p.Game
  · intro c t0 pre suf u a hinv hvalid
    exact run_extend_mono pre suf c t0 hinv hvalid u a
  · intro c t0 calls hinv hvalid hnonneg u a
    exact le_trans (hnonneg u a) (run_mono calls c t0 hinv hvalid u a)
  · intro t0 calls u a hvalid
    have hinv : SessionsStartedBy (NewCounter ∅) t0 := by
      intro e he
      cases he
    exact run_mono calls (NewCounter ∅) t0 hinv hvalid u a

/-- The run of C9 in which user `42` starts Chess at 0, `Snapshot` runs at 5
and the session ends at 8: the total after the whole run is not below the
total after the snapshot. -/
theorem totals_never_decrease_witness :
    storedTotal ((NewCounter ∅).run startThenSnapshot).DB "42" "Chess" ≤
      storedTotal ((NewCounter ∅).run (startThenSnapshot ++ thenFinish)).DB "42" "Chess" :=
  totals_never_decrease.2.1 (NewCounter ∅) 0 startThenSnapshot thenFinish "42" "Chess"
    (by decide) (by decide)

/-! ## Records without entries -/

theorem kerase_ne_nil (g : String) (l : List (Sigma fun _ : String => Bytes))
    (hne : l ≠ []) (hlen : l.length ≠ 1) : List.kerase g l ≠ [] := by
  by_cases hg : g ∈ l.keys
  · obtain ⟨v, l1, l2, -, hl, hk⟩ := List.exists_of_kerase hg
    rw [hk]
    intro hnil
    have h0 : (l1 ++ l2).length = 0 := by rw [hnil]; rfl
    rw [hl] at hlen
    simp only [List.length_append, List.length_cons] at hlen h0
    omega
  · rw [List.kerase_of_not_mem_keys hg]
    exact hne

/-- With a number of games other than one in the bucket of `u`,
`ResetOneGametime(u, g)` returns `nil`, leaves the bucket in place with at
most `g` removed, and leaves every other entry and bucket as it was. -/
theorem resetOneGametime_several (c : GametimeCounter) (user : User) (g : String) (b : Bucket)
    (hb : Tx.Bucket c.DB user.ID = some b) (hn : Bucket.KeyN b ≠ 1) :
    (c.ResetOneGametime user g).2 = none ∧
    Tx.Bucket (c.ResetOneGametime user g).1.DB user.ID = some (b.erase g) ∧
    (∀ a, a ≠ g →
      Bucket.Get (c.ResetOneGametime user g).1.DB user.ID a = Bucket.Get c.DB user.ID a) ∧
    (∀ u, u ≠ user.ID → Tx.Bucket (c.ResetOneGametime user g).1.DB u = Tx.Bucket c.DB u) := by
  have hlook : c.DB.lookup user.ID = some b := hb
  have hres : c.ResetOneGametime user g =
      ({ c with DB := c.DB.insert user.ID (b.erase g) }, none) := by
    simp [GametimeCounter.ResetOneGametime, DB.Update, hb, hn, Bucket.Delete, hlook]
  rw [hres]
  refine ⟨rfl, ?_, ?_, ?_⟩
  · exact AList.lookup_insert _
  · intro a ha
    simp [Bucket.Get, hlook, AList.lookup_erase_ne ha]
  · intro u hu
    exact AList.lookup_insert_ne hu

theorem save_noEmpty (p : PlayingUser) (t : Tx) (now : Int)
    (hok : (p.SaveGametime t now).2.2 = none) (hinv : NoEmptyRecord t) :
    NoEmptyRecord (p.SaveGametime t now).2.1 := by
  obtain ⟨hu, hg, hk⟩ := (save_success_iff p t now).mp hok
  obtain ⟨b, bytes, -, -, hres⟩ := save_ok p t now hu hg hk
  rw [hres]
  intro u b2 hb2
  simp only at hb2
  by_cases huu : u = p.UserID
  · subst huu
    rw [AList.lookup_insert] at hb2
    cases hb2
    simp [AList.insert_entries]
  · rw [AList.lookup_insert_ne huu] at hb2
    unfold Tx.CreateBucketIfNotExists at hb2
    rw [if_neg hu] at hb2
    split at hb2
    · exact hinv u b2 hb2
    · rw [AList.lookup_insert_ne huu] at hb2
      exact hinv u b2 hb2

/-- The calls other than `Snapshot` keep every bucket non-empty: `EndGametime`
(a failed save is rolled back), `ResetGametime` and `ResetOneGametime`. -/
theorem noEmptyRecord_kept (c : GametimeCounter) (hinv : NoEmptyRecord c.DB) :
    (∀ pUser now, NoEmptyRecord (c.EndGametime pUser now).DB) ∧
    (∀ user, NoEmptyRecord (c.ResetGametime user).1.DB) ∧
    (∀ user g, NoEmptyRecord (c.ResetOneGametime user g).1.DB) := by
  refine ⟨?_, ?_, ?_⟩
  · intro pUser now
    rw [endGametime_db]
    split
    · rename_i hok
      exact save_noEmpty pUser c.DB now hok hinv
    · exact hinv
  · intro user
    cases hb : c.DB.lookup user.ID with
    | none =>
      have hres : (c.ResetGametime user).1.DB = c.DB := by
        simp [GametimeCounter.ResetGametime, DB.Update, Tx.DeleteBucket, hb]
      rw [hres]
      exact hinv
    | some b =>
      have hres : (c.ResetGametime user).1.DB = c.DB.erase user.ID := by
        simp [GametimeCounter.ResetGametime, DB.Update, Tx.DeleteBucket, hb]
      rw [hres]
      intro u b2 hb2
      by_cases huu : u = user.ID
      · subst huu
        rw [AList.lookup_erase] at hb2
        cases hb2
      · rw [AList.lookup_erase_ne huu] at hb2
        exact hinv u b2 hb2
  · intro user g
    cases hb : Tx.Bucket c.DB user.ID with
    | none =>
      have hres : (c.ResetOneGametime user g).1.DB = c.DB := by
        simp [GametimeCounter.ResetOneGametime, DB.Update, hb]
      rw [hres]
      exact hinv
    | some b =>
      have hlook : c.DB.lookup user.ID = some b := hb
      by_cases hn : Bucket.KeyN b = 1
      · have hres : (c.ResetOneGametime user g).1.DB = c.DB.erase user.ID := by
          simp [GametimeCounter.ResetOneGametime, DB.Update, hb, hn, Tx.DeleteBucket, hlook]
        rw [hres]
        intro u b2 hb2
        by_cases huu : u = user.ID
        · subst huu
          rw [AList.lookup_erase] at hb2
          cases hb2
        · rw [AList.lookup_erase_ne huu] at hb2
          exact hinv u b2 hb2
      · have hres : (c.ResetOneGametime user g).1.DB = c.DB.insert user.ID (b.erase g) := by
          simp [GametimeCounter.ResetOneGametime, DB.Update, hb, hn, Bucket.Delete, hlook]
        rw [hres]
        intro u b2 hb2
        by_cases huu : u = user.ID
        · subst huu
          rw [AList.lookup_insert] at hb2
          cases hb2
          exact kerase_ne_nil g b.entries (hinv _ b hlook) hn
        · rw [AList.lookup_insert_ne huu] at hb2
          exact hinv u b2 hb2

end Gobot
